import Mathlib

set_option maxRecDepth 40000
set_option maxHeartbeats 2000000

/-! Formal model of the transaction-extraction core of the go-money
    repository (internal/extractor/extractor.go) together with theorems
    about its behaviour.

    Modelling conventions:
    * Go strings are lists of characters (`Str`); `chars` injects Lean
      string literals.
    * Go `float64` amounts are exact rationals.  Every amount the code
      manipulates is a decimal fraction with few significant digits, and
      the only float operations performed are parsing and order
      comparisons, for which rounding to the nearest double is monotone
      and injective at these magnitudes, so the rational model makes
      exactly the same decisions as the float code.
    * `time.Time` values are calendar date-times (`DateTime`); the zero
      `time.Time` is 0001-01-01 00:00:00, here `dateZero`.
    * `time.Now()` is modelled as an explicit `now : DateTime` parameter
      of the functions that consult the clock.
    * The service catalog (Go: `ServiceTracker`, a map filled by
      `loadServiceTracker` from JSON, iterated in unspecified order) is
      modelled as a `List Service` scanned in list order; file loading and
      JSON decoding are I/O collaborators outside the core.
-/

namespace GoMoney

abbrev Str := List Char

def chars (s : String) : Str := s.data

/-- ASCII lower-casing of one character.  Models `strings.ToLower` /
    case-insensitive matching on the ASCII letters the code deals with;
    all other characters are unchanged. -/
def lowerCh (c : Char) : Char :=
  if 65 ≤ c.toNat ∧ c.toNat ≤ 90 then Char.ofNat (c.toNat + 32) else c

def lowerStr (s : Str) : Str := s.map lowerCh

/-- ASCII upper-casing of one character (for `strings.Title`). -/
def upperCh (c : Char) : Char :=
  if 97 ≤ c.toNat ∧ c.toNat ≤ 122 then Char.ofNat (c.toNat - 32) else c

def isDigitCh (c : Char) : Bool := 48 ≤ c.toNat && c.toNat ≤ 57

def isAsciiLetter (c : Char) : Bool :=
  (65 ≤ c.toNat && c.toNat ≤ 90) || (97 ≤ c.toNat && c.toNat ≤ 122)

/-- `strings.Title`'s ASCII word-separator test: a character is a
    separator unless it is a digit, a letter or an underscore. -/
def isSeparatorCh (c : Char) : Bool :=
  !(isDigitCh c || isAsciiLetter c || c == '_')

/-- `strings.Title` (ASCII): title-case every character that follows a
    separator; the virtual character before the string is a space. -/
def goTitleAux : Bool → Str → Str
  | _, [] => []
  | prevSep, c :: t =>
      (if prevSep then upperCh c else c) :: goTitleAux (isSeparatorCh c) t

def goTitle (s : Str) : Str := goTitleAux true s

/-- `strings.ReplaceAll(s, ",", "")`: drop every comma. -/
def stripCommas (s : Str) : Str := s.filter (fun c => !(c == ','))

/-- Numeric value of a digit string (0 for the empty string). -/
def digitsVal (s : Str) : Nat := s.foldl (fun a c => 10 * a + (c.toNat - 48)) 0

def allDigits (s : Str) : Bool := s.all isDigitCh

/-- Digit-string reading shared by the `strconv` models: `some` exactly on
    non-empty all-digit strings. -/
def digitsToNat (s : Str) : Option Nat :=
  if s.isEmpty || !allDigits s then none else some (digitsVal s)

/-- Models `strconv.Atoi` on the digit/sign strings reachable from the
    extractor (regex captures stripped of commas): optional sign, decimal
    digits, 64-bit signed range check.  `Atoi`'s other syntax (base
    prefixes, underscores) is unreachable from these call sites. -/
def goAtoiCore (neg : Bool) (s : Str) : Option Int :=
  match digitsToNat s with
  | none => none
  | some n =>
      if neg then
        if n ≤ 9223372036854775808 then some (-(n : Int)) else none
      else
        if n ≤ 9223372036854775807 then some (n : Int) else none

def goAtoi (s : Str) : Option Int :=
  match s with
  | [] => none
  | c :: r =>
      if c = '+' then goAtoiCore false r
      else if c = '-' then goAtoiCore true r
      else goAtoiCore false (c :: r)

/-- Unsigned part of `strconv.ParseFloat` on the decimal strings reachable
    from the extractor: digits, optional point, digits; at least one digit;
    the whole string must be consumed.  (Exponents, hex floats, Inf/NaN and
    underscores never occur in the regex captures fed to `ParseFloat`.) -/
def parseUnsigned (s : Str) : Option ℚ :=
  match s.dropWhile isDigitCh with
  | [] =>
      if (s.takeWhile isDigitCh).isEmpty then none
      else some (digitsVal (s.takeWhile isDigitCh) : ℚ)
  | c :: r2 =>
      if c = '.' then
        if (r2.dropWhile isDigitCh).isEmpty &&
           !((s.takeWhile isDigitCh).isEmpty && (r2.takeWhile isDigitCh).isEmpty) then
          some ((digitsVal (s.takeWhile isDigitCh) : ℚ) +
                (digitsVal (r2.takeWhile isDigitCh) : ℚ) /
                  ((10 : ℚ) ^ (r2.takeWhile isDigitCh).length))
        else none
      else none

/-- Models `strconv.ParseFloat` (see `parseUnsigned` for scope). -/
def goParseFloat (s : Str) : Option ℚ :=
  match s with
  | [] => none
  | c :: r =>
      if c = '+' then parseUnsigned r
      else if c = '-' then (parseUnsigned r).map Neg.neg
      else parseUnsigned (c :: r)

/-- `strings.Contains`. -/
def goContains : Str → Str → Bool
  | s, sub =>
      if sub.isPrefixOf s then true
      else
        match s with
        | [] => false
        | _ :: t => goContains t sub

/-- `strings.ContainsAny(s, "$€£¥")` as used by the tier-1 scan. -/
def containsAnyCur (s : Str) : Bool :=
  s.any (fun c => c == '$' || c == '€' || c == '£' || c == '¥')

/-- `strings.TrimPrefix`. -/
def goTrimPre (p s : Str) : Str := if p.isPrefixOf s then s.drop p.length else s

/-- `unicode.IsSpace` restricted to ASCII (for `strings.TrimSpace`). -/
def isSpaceGo (c : Char) : Bool :=
  c == ' ' || c == '\t' || c == '\n' || c == '\x0b' || c == '\x0c' || c == '\r'

/-- `strings.TrimSpace` (ASCII whitespace). -/
def goTrimSpace (s : Str) : Str :=
  ((s.dropWhile isSpaceGo).reverse.dropWhile isSpaceGo).reverse

/-- `strings.ReplaceAll` with a non-empty pattern (fuel = length of the
    subject, enough since every step consumes at least one character). -/
def replaceAllFuel : Nat → Str → Str → Str → Str
  | 0, s, _, _ => s
  | fuel + 1, s, pat, rep =>
      if pat.isPrefixOf s && !pat.isEmpty then
        rep ++ replaceAllFuel fuel (s.drop pat.length) pat rep
      else
        match s with
        | [] => []
        | c :: t => c :: replaceAllFuel fuel t pat rep

def goReplaceAll (s pat rep : Str) : Str := replaceAllFuel (s.length + 1) s pat rep

/-- Decimal rendering of a natural number (`fmt.Sprintf "%d"`). -/
def natToStrAux : Nat → Nat → Str
  | 0, _ => []
  | fuel + 1, n =>
      if n < 10 then [Char.ofNat (48 + n)]
      else natToStrAux fuel (n / 10) ++ [Char.ofNat (48 + n % 10)]

def natToStr (n : Nat) : Str := natToStrAux (n + 1) n

/-! ### Calendar date-times (`time.Time`) -/

/-- A `time.Time` value at second precision (the extractor never looks at
    anything finer). -/
structure DateTime where
  year : Nat
  month : Nat
  day : Nat
  hour : Nat
  minute : Nat
  second : Nat
deriving DecidableEq, Repr

/-- The zero `time.Time` (0001-01-01 00:00:00 UTC); `t.IsZero()` is
    modelled as `t = dateZero`. -/
def dateZero : DateTime := ⟨1, 1, 1, 0, 0, 0⟩

def isLeapYear (y : Nat) : Bool := y % 4 == 0 && (y % 100 != 0 || y % 400 == 0)

/-- `time.daysIn`: the number of days of a month. -/
def daysIn (m y : Nat) : Nat :=
  if m = 2 then (if isLeapYear y then 29 else 28)
  else if m = 4 ∨ m = 6 ∨ m = 9 ∨ m = 11 then 30
  else 31

/-- Go's `longMonthNames` table, in order. -/
def longMonthNames : List Str :=
  [chars "January", chars "February", chars "March", chars "April",
   chars "May", chars "June", chars "July", chars "August",
   chars "September", chars "October", chars "November", chars "December"]

/-- Case-insensitive ASCII prefix test (Go `time`'s `match`). -/
def matchCI (name val : Str) : Bool :=
  (name.zip val).all (fun p => lowerCh p.1 == lowerCh p.2) && name.length ≤ val.length

/-- Go `time`'s `lookup` over `longMonthNames`: the first name that is a
    case-insensitive prefix of the value, as month number 1..12, together
    with the unconsumed rest of the value. -/
def monthLookupAux : Nat → List Str → Str → Option (Nat × Str)
  | _, [], _ => none
  | i, n :: ns, val =>
      if matchCI n val then some (i + 1, val.drop n.length)
      else monthLookupAux (i + 1) ns val

def monthLookup (val : Str) : Option (Nat × Str) := monthLookupAux 0 longMonthNames val

/-- Exactly two digits (`getnum` with `fixed = true`, as for the
    zero-padded layout chunks "01"/"02"). -/
def parse2 : Str → Option (Nat × Str)
  | a :: b :: r =>
      if isDigitCh a && isDigitCh b then some (digitsVal [a, b], r) else none
  | _ => none

/-- Exactly four digits (layout chunk "2006"). -/
def parse4 : Str → Option (Nat × Str)
  | a :: b :: c :: d :: r =>
      if isDigitCh a && isDigitCh b && isDigitCh c && isDigitCh d then
        some (digitsVal [a, b, c, d], r)
      else none
  | _ => none

/-- A literal layout character. -/
def parseLit (c : Char) : Str → Option Str
  | d :: r => if c = d then some r else none
  | [] => none

/-- `time.Parse`'s final date validation: month 1..12, day 1..daysIn. -/
def validDate (y m d : Nat) : Option DateTime :=
  if 1 ≤ m ∧ m ≤ 12 then
    if 1 ≤ d ∧ d ≤ daysIn m y then some ⟨y, m, d, 0, 0, 0⟩ else none
  else none

/-- The four `time.Parse` layouts the extractor uses. -/
inductive Layout where
  | isoDash      -- "2006-01-02"
  | slashMDY     -- "01/02/2006"
  | monthFirst   -- "January 02 2006"
  | dayFirst     -- "02 January 2006"
deriving DecidableEq, Repr

/-- Models `time.Parse(layout, value)` for the four layouts above: the
    whole value must be consumed, and the date components must pass Go's
    range checks.  Note layout chunk "January" only accepts full month
    names, and "01"/"02" demand exactly two digits. -/
def goTimeParse (l : Layout) (v : Str) : Option DateTime :=
  match l with
  | .isoDash =>
      match parse4 v with
      | none => none
      | some (y, v1) =>
          match parseLit '-' v1 with
          | none => none
          | some v2 =>
              match parse2 v2 with
              | none => none
              | some (m, v3) =>
                  match parseLit '-' v3 with
                  | none => none
                  | some v4 =>
                      match parse2 v4 with
                      | none => none
                      | some (d, v5) => if v5.isEmpty then validDate y m d else none
  | .slashMDY =>
      match parse2 v with
      | none => none
      | some (m, v1) =>
          match parseLit '/' v1 with
          | none => none
          | some v2 =>
              match parse2 v2 with
              | none => none
              | some (d, v3) =>
                  match parseLit '/' v3 with
                  | none => none
                  | some v4 =>
                      match parse4 v4 with
                      | none => none
                      | some (y, v5) => if v5.isEmpty then validDate y m d else none
  | .monthFirst =>
      match monthLookup v with
      | none => none
      | some (m, v1) =>
          match parseLit ' ' v1 with
          | none => none
          | some v2 =>
              match parse2 v2 with
              | none => none
              | some (d, v3) =>
                  match parseLit ' ' v3 with
                  | none => none
                  | some v4 =>
                      match parse4 v4 with
                      | none => none
                      | some (y, v5) => if v5.isEmpty then validDate y m d else none
  | .dayFirst =>
      match parse2 v with
      | none => none
      | some (d, v1) =>
          match parseLit ' ' v1 with
          | none => none
          | some v2 =>
              match monthLookup v2 with
              | none => none
              | some (m, v3) =>
                  match parseLit ' ' v3 with
                  | none => none
                  | some v4 =>
                      match parse4 v4 with
                      | none => none
                      | some (y, v5) => if v5.isEmpty then validDate y m d else none

/-! ### A small regular-expression engine

Go's `regexp` package (non-POSIX mode) returns, at the leftmost position
where a match exists, the match a backtracking search trying alternatives
left to right and quantifiers greedily would find first, and
`FindAllStringSubmatch` iterates that from the end of each match.  The
engine below implements exactly those semantics for the constructs the
extractor's patterns use: literals, the classes `\d`, `\s`, `[\d,]`,
`[\$£€]`, the word boundary `\b`, capturing groups, concatenation,
alternation, `*` and counted repetition (`?` is `rep 0 1`, `+` is an atom
followed by `*`, `{m,n}`/`{n}` are `rep`).  A case-insensitivity flag
models a leading `(?i)`. -/

/-- Character classes occurring in the extractor's patterns. -/
inductive CC where
  | digit            -- \d
  | space            -- \s = [\t\n\f\r ]
  | digitComma       -- [\d,]
  | dollarPoundEuro  -- [\$£€]
deriving DecidableEq, Repr

def ccMatch : CC → Char → Bool
  | .digit, c => isDigitCh c
  | .space, c => c == '\t' || c == '\n' || c == '\x0c' || c == '\r' || c == ' '
  | .digitComma, c => isDigitCh c || c == ','
  | .dollarPoundEuro, c => c == '$' || c == '£' || c == '€'

inductive RE where
  | eps
  | lit (c : Char)
  | cls (cc : CC)
  | bnd
  | grp (idx : Nat) (r : RE)
  | cat (a b : RE)
  | alt (a b : RE)
  | star (r : RE)
  | rep (lo hi : Nat) (r : RE)
deriving DecidableEq, Repr

/-- Sequence of expressions. -/
def seqR (l : List RE) : RE := l.foldr RE.cat RE.eps

/-- Alternation of a non-empty list, preferring earlier entries. -/
def altsR : List RE → RE
  | [] => RE.eps
  | [r] => r
  | r :: rs => RE.alt r (altsR rs)

/-- A literal word. -/
def sLit (s : String) : RE := seqR ((chars s).map RE.lit)

def isWordCh (c : Char) : Bool := isDigitCh c || isAsciiLetter c || c == '_'

def isWordO : Option Char → Bool
  | none => false
  | some c => isWordCh c

/-- Character comparison under the optional `(?i)` flag. -/
def chEq (ci : Bool) (p c : Char) : Bool :=
  p == c || (ci && (lowerCh p == lowerCh c))

/-- Captured groups, most recent first. -/
abbrev Caps := List (Nat × Str)

def capGet (caps : Caps) (i : Nat) : Str :=
  match caps.find? (fun p => p.1 == i) with
  | some p => p.2
  | none => []

/-- All ways to match a prefix of `s` against `re`, in backtracking
    preference order.  Each result is (rest of input, character preceding
    that rest, captures).  `prev` is the character before `s` (for `\b`).
    The fuel bounds the recursion depth and is chosen large enough at the
    call site (`findAllSub`) for the patterns and texts at hand. -/
def mrun (ci : Bool) : Nat → RE → Option Char → Str → Caps →
    List (Str × Option Char × Caps)
  | 0, _, _, _, _ => []
  | _ + 1, .eps, prev, s, caps => [(s, prev, caps)]
  | _ + 1, .lit c, _, s, caps =>
      match s with
      | [] => []
      | d :: rest => if chEq ci c d then [(rest, some d, caps)] else []
  | _ + 1, .cls cc, _, s, caps =>
      match s with
      | [] => []
      | d :: rest => if ccMatch cc d then [(rest, some d, caps)] else []
  | _ + 1, .bnd, prev, s, caps =>
      if isWordO prev != isWordO s.head? then [(s, prev, caps)] else []
  | fuel + 1, .grp i r, prev, s, caps =>
      (mrun ci fuel r prev s caps).map fun x =>
        (x.1, x.2.1, (i, s.take (s.length - x.1.length)) :: x.2.2)
  | fuel + 1, .cat a b, prev, s, caps =>
      (mrun ci fuel a prev s caps).flatMap fun x => mrun ci fuel b x.2.1 x.1 x.2.2
  | fuel + 1, .alt a b, prev, s, caps =>
      mrun ci fuel a prev s caps ++ mrun ci fuel b prev s caps
  | fuel + 1, .star r, prev, s, caps =>
      ((mrun ci fuel r prev s caps).flatMap fun x =>
        if x.1.length < s.length then mrun ci fuel (.star r) x.2.1 x.1 x.2.2
        else []) ++ [(s, prev, caps)]
  | fuel + 1, .rep lo hi r, prev, s, caps =>
      match hi with
      | 0 => if lo = 0 then [(s, prev, caps)] else []
      | hi' + 1 =>
          ((mrun ci fuel r prev s caps).flatMap fun x =>
            mrun ci fuel (.rep (lo - 1) hi' r) x.2.1 x.1 x.2.2) ++
          (if lo = 0 then [(s, prev, caps)] else [])

/-- Highest capture-group index of a pattern. -/
def maxGrp : RE → Nat
  | .grp i r => max i (maxGrp r)
  | .cat a b => max (maxGrp a) (maxGrp b)
  | .alt a b => max (maxGrp a) (maxGrp b)
  | .star r => maxGrp r
  | .rep _ _ r => maxGrp r
  | _ => 0

/-- One submatch record, Go style: index 0 is the matched text, index i
    the text of group i ("" when the group did not participate). -/
def submatchOf (re : RE) (matched : Str) (caps : Caps) : List Str :=
  matched :: (List.range (maxGrp re)).map (fun i => capGet caps (i + 1))

/-- `FindAllStringSubmatch(text, -1)`: scan positions left to right; at
    each position take the backtracking-first match if any; continue after
    each (non-empty) match. -/
def findAllGo (ci : Bool) (re : RE) : Nat → Option Char → Str → List (List Str)
  | 0, _, _ => []
  | fuel + 1, prev, s =>
      match (mrun ci (10 * s.length + 600) re prev s []).head? with
      | some x =>
          let matched := s.take (s.length - x.1.length)
          let sub := submatchOf re matched x.2.2
          if x.1.length < s.length then
            sub :: findAllGo ci re fuel x.2.1 x.1
          else
            sub :: (match s with
                    | [] => []
                    | c :: t => findAllGo ci re fuel (some c) t)
      | none =>
          match s with
          | [] => []
          | c :: t => findAllGo ci re fuel (some c) t

def findAllSub (ci : Bool) (re : RE) (text : Str) : List (List Str) :=
  findAllGo ci re (text.length + 1) none text

/-- `FindAllString(text, -1)`: the full-match texts only. -/
def findAllStr (ci : Bool) (re : RE) (text : Str) : List Str :=
  (findAllSub ci re text).map (fun m => m.headD [])

/-! ### The extractor's regular expressions, transcribed pattern by pattern -/

/-- `\s*` -/
def spaceStar : RE := .star (.cls .space)

/-- `\s+` -/
def spacePlus : RE := .cat (.cls .space) (.star (.cls .space))

/-- `\d[\d,]*\.?\d{0,2}` — the numeric group of the tier-1 patterns. -/
def numG : RE :=
  seqR [.cls .digit, .star (.cls .digitComma), .rep 0 1 (.lit '.'),
        .rep 0 2 (.cls .digit)]

/-- `[\d,]+\.?\d{0,2}` — the numeric group of the fallback patterns. -/
def numF : RE :=
  seqR [.cls .digitComma, .star (.cls .digitComma), .rep 0 1 (.lit '.'),
        .rep 0 2 (.cls .digit)]

/-- The `currencyPatterns` table of `extractAmountWithCurrency`, in order;
    every entry is compiled with a leading `(?i)`.  Each triple is
    (pattern, currency code, currency symbol). -/
def currencyPatterns : List (RE × Str × Str) :=
  [ -- `(\$|\$\s*)[\s]*(\d[\d,]*\.?\d{0,2})\s*(USD)?`
    (seqR [.grp 1 (.alt (.lit '$') (.cat (.lit '$') spaceStar)), spaceStar,
           .grp 2 numG, spaceStar, .rep 0 1 (.grp 3 (sLit "USD"))],
     chars "USD", chars "$"),
    -- `(\d[\d,]*\.?\d{0,2})\s*(USD)`
    (seqR [.grp 1 numG, spaceStar, .grp 2 (sLit "USD")], chars "USD", chars "$"),
    -- `(MXN|M\$|MEX|\$\s*M)\s*(\d[\d,]*\.?\d{0,2})`
    (seqR [.grp 1 (altsR [sLit "MXN", .cat (.lit 'M') (.lit '$'), sLit "MEX",
                          seqR [.lit '$', spaceStar, .lit 'M']]),
           spaceStar, .grp 2 numG],
     chars "MXN", chars "$"),
    -- `(\d[\d,]*\.?\d{0,2})\s*(MXN|M\$|MEX)`
    (seqR [.grp 1 numG, spaceStar,
           .grp 2 (altsR [sLit "MXN", .cat (.lit 'M') (.lit '$'), sLit "MEX"])],
     chars "MXN", chars "$"),
    -- `(€)\s*(\d[\d,]*\.?\d{0,2})`
    (seqR [.grp 1 (.lit '€'), spaceStar, .grp 2 numG], chars "EUR", chars "€"),
    -- `(\d[\d,]*\.?\d{0,2})\s*(EUR|€)`
    (seqR [.grp 1 numG, spaceStar, .grp 2 (.alt (sLit "EUR") (.lit '€'))],
     chars "EUR", chars "€"),
    -- `(£)\s*(\d[\d,]*\.?\d{0,2})`
    (seqR [.grp 1 (.lit '£'), spaceStar, .grp 2 numG], chars "GBP", chars "£"),
    -- `(\d[\d,]*\.?\d{0,2})\s*(GBP|£)`
    (seqR [.grp 1 numG, spaceStar, .grp 2 (.alt (sLit "GBP") (.lit '£'))],
     chars "GBP", chars "£"),
    -- `(¥|JPY)\s*(\d[\d,]*\.?\d{0,2})`
    (seqR [.grp 1 (.alt (.lit '¥') (sLit "JPY")), spaceStar, .grp 2 numG],
     chars "JPY", chars "¥"),
    -- `(\d[\d,]*\.?\d{0,2})\s*(JPY|¥)`
    (seqR [.grp 1 numG, spaceStar, .grp 2 (.alt (sLit "JPY") (.lit '¥'))],
     chars "JPY", chars "¥"),
    -- `(CAD|\$\s*C)\s*(\d[\d,]*\.?\d{0,2})`
    (seqR [.grp 1 (.alt (sLit "CAD") (seqR [.lit '$', spaceStar, .lit 'C'])),
           spaceStar, .grp 2 numG],
     chars "CAD", chars "$"),
    -- `(\d[\d,]*\.?\d{0,2})\s*(CAD)`
    (seqR [.grp 1 numG, spaceStar, .grp 2 (sLit "CAD")], chars "CAD", chars "$") ]

/-- The `patterns` table of `extractAmount`, in order, each with its
    case-insensitivity flag (`(?i)` prefix in the source). -/
def amountPatterns : List (RE × Bool) :=
  [ -- `\$\s*([\d,]+\.?\d{0,2})`
    (seqR [.lit '$', spaceStar, .grp 1 numF], false),
    -- `USD\s+([\d,]+\.?\d{0,2})`
    (seqR [sLit "USD", spacePlus, .grp 1 numF], false),
    -- `(?i)total\s*:?\s*\$?\s*([\d,]+\.?\d{0,2})`
    (seqR [sLit "total", spaceStar, .rep 0 1 (.lit ':'), spaceStar,
           .rep 0 1 (.lit '$'), spaceStar, .grp 1 numF], true),
    -- `(?i)amount\s*:?\s*\$?\s*([\d,]+\.?\d{0,2})`
    (seqR [sLit "amount", spaceStar, .rep 0 1 (.lit ':'), spaceStar,
           .rep 0 1 (.lit '$'), spaceStar, .grp 1 numF], true),
    -- `(?i)charge\s*:?\s*\$?\s*([\d,]+\.?\d{0,2})`
    (seqR [sLit "charge", spaceStar, .rep 0 1 (.lit ':'), spaceStar,
           .rep 0 1 (.lit '$'), spaceStar, .grp 1 numF], true),
    -- `(?i)price\s*:?\s*\$?\s*([\d,]+\.?\d{0,2})`
    (seqR [sLit "price", spaceStar, .rep 0 1 (.lit ':'), spaceStar,
           .rep 0 1 (.lit '$'), spaceStar, .grp 1 numF], true),
    -- `[\$£€]\s*([\d,]+\.?\d{0,2})`
    (seqR [.cls .dollarPoundEuro, spaceStar, .grp 1 numF], false),
    -- `[\d,]+\.\d{2}\s*(USD|EUR|GBP)`
    (seqR [.cls .digitComma, .star (.cls .digitComma), .lit '.',
           .rep 2 2 (.cls .digit), spaceStar,
           .grp 1 (altsR [sLit "USD", sLit "EUR", sLit "GBP"])], false) ]

/-- `\d+\.\d{2}` — the decimal-shaped token of the penultimate fallback. -/
def decimalRE : RE :=
  seqR [.cls .digit, .star (.cls .digit), .lit '.', .rep 2 2 (.cls .digit)]

/-- `[\d,]+\.?\d{0,2}` — the last-resort number shape. -/
def lastResortRE : RE := numF

/-- `(jan|january|...|dec|december)` in source order. -/
def monthsAlt : RE :=
  altsR [sLit "jan", sLit "january", sLit "feb", sLit "february",
         sLit "mar", sLit "march", sLit "apr", sLit "april",
         sLit "may", sLit "jun", sLit "june", sLit "jul", sLit "july",
         sLit "aug", sLit "august", sLit "sep", sLit "september",
         sLit "oct", sLit "october", sLit "nov", sLit "november",
         sLit "dec", sLit "december"]

/-- The `datePatterns` table of `extractTransactionDate`, in order, each
    compiled with `(?i)` and paired with its `time.Parse` layout. -/
def datePatterns : List (RE × Layout) :=
  [ -- `\b(\d{4})-(\d{2})-(\d{2})\b`, layout "2006-01-02"
    (seqR [.bnd, .grp 1 (.rep 4 4 (.cls .digit)), .lit '-',
           .grp 2 (.rep 2 2 (.cls .digit)), .lit '-',
           .grp 3 (.rep 2 2 (.cls .digit)), .bnd], .isoDash),
    -- `\b(\d{1,2})/(\d{1,2})/(\d{4})\b`, layout "01/02/2006"
    (seqR [.bnd, .grp 1 (.rep 1 2 (.cls .digit)), .lit '/',
           .grp 2 (.rep 1 2 (.cls .digit)), .lit '/',
           .grp 3 (.rep 4 4 (.cls .digit)), .bnd], .slashMDY),
    -- `\b(jan|...|december)\s+(\d{1,2}),?\s+(\d{4})\b`, layout "January 02 2006"
    (seqR [.bnd, .grp 1 monthsAlt, spacePlus, .grp 2 (.rep 1 2 (.cls .digit)),
           .rep 0 1 (.lit ','), spacePlus, .grp 3 (.rep 4 4 (.cls .digit)),
           .bnd], .monthFirst),
    -- `\b(\d{1,2})\s+(jan|...|december)\s+(\d{4})\b`, layout "02 January 2006"
    (seqR [.bnd, .grp 1 (.rep 1 2 (.cls .digit)), spacePlus, .grp 2 monthsAlt,
           spacePlus, .grp 3 (.rep 4 4 (.cls .digit)), .bnd], .dayFirst) ]

/-- `(?i)\b(jan|...|december)\s+(\d{1,2})\b` — the year-less fallback. -/
def monthDayRE : RE :=
  seqR [.bnd, .grp 1 monthsAlt, spacePlus, .grp 2 (.rep 1 2 (.cls .digit)), .bnd]

/-! ### Data model (internal/models/models.go and extractor.go) -/

structure PricePatternConfig where
  currency : Str
  fields : List Str
deriving DecidableEq, Repr

structure Service where
  id : Str
  name : Str
  category : Str
  emailDomains : List Str
  transactionTypes : List Str
  keywords : List Str
  pricePattern : PricePatternConfig
deriving DecidableEq, Repr

/-- models.Message (fields `From`/`To` are `fromAddr`/`toAddr`; Lean
    reserves those words). -/
structure Message where
  id : Str
  threadID : Str
  fromAddr : Str
  toAddr : Str
  subject : Str
  body : Str
  date : DateTime
  labels : List Str
deriving DecidableEq, Repr

structure Transaction where
  id : Str
  serviceID : Str
  serviceName : Str
  category : Str
  amount : ℚ
  currency : Str
  currencySymbol : Str
  date : DateTime
  description : Str
  email : Str
  subject : Str
  timestamp : DateTime
  rawAmount : Str
deriving DecidableEq, Repr

/-! ### The extractor (internal/extractor/extractor.go) -/

/-- One domain test of `matchService`'s priority-1 pass. -/
def domainHit (sender : Str) (svc : Service) : Bool :=
  svc.emailDomains.any (fun domain => goContains sender (lowerStr domain))

/-- One keyword test of `matchService`'s priority-2 pass. -/
def keywordHit (body : Str) (svc : Service) : Bool :=
  svc.keywords.any (fun keyword => goContains body (lowerStr keyword))

/-- `matchService`: priority 1 scans email domains against the lower-cased
    sender, priority 2 scans keywords against the lower-cased body+" "+
    subject.  The Go code iterates a map in unspecified order; the model
    scans the catalog list in order. -/
def matchService (services : List Service) (msg : Message) : Option Service :=
  match services.find? (domainHit (lowerStr msg.fromAddr)) with
  | some svc => some svc
  | none =>
      services.find? (keywordHit (lowerStr (msg.body ++ chars " " ++ msg.subject)))

/-- The admission test of the candidate-selection loop: non-empty, free of
    currency symbols, and a positive `strconv.Atoi` after comma removal. -/
def candidateOK (v : Str) : Bool :=
  !v.isEmpty && !containsAnyCur v &&
    (match goAtoi (stripCommas v) with
     | some num => decide (0 < num)
     | none => false)

/-- The inner candidate-selection loop of `extractAmountWithCurrency`: walk
    the submatch groups from the last to group 1 and take the first that is
    non-empty, contains no currency symbol, and whose comma-stripped text
    passes `strconv.Atoi` with a positive value. -/
def pickFrom (m : List Str) : List Nat → Option Str
  | [] => none
  | i :: is =>
      if candidateOK ((m.get? i).getD []) then some ((m.get? i).getD [])
      else pickFrom m is

/-- Indices `len-1, len-2, ..., 1` walked by the selection loop (guarded by
    `len(match) >= 3` in the source). -/
def pickAmountStr (m : List Str) : Option Str :=
  if 3 ≤ m.length then pickFrom m (List.range' 1 (m.length - 1)).reverse else none

/-- The per-match body of the tier-1 scan: strip commas off the selected
    candidate, `ParseFloat` it, and keep it as the new maximum (together
    with `match[0]` as the raw text) when it beats the current maximum and
    is below the 1,000,000 sanity bound. -/
def tier1Step (acc : ℚ × Str) (m : List Str) : ℚ × Str :=
  match goParseFloat (stripCommas ((pickAmountStr m).getD [])) with
  | some amount =>
      if acc.1 < amount ∧ amount < 1000000 then (amount, m.headD []) else acc
  | none => acc

/-- The final test of one tier-1 pattern: the pattern wins iff its running
    maximum ended positive; it then reports amount, currency data and the
    raw text of the winning occurrence. -/
def tier1Result (res : ℚ × Str) (cp : RE × Str × Str) :
    Option (ℚ × Str × Str × Str) :=
  if 0 < res.1 then some (res.1, cp.2.1, cp.2.2, res.2) else none

/-- One entry of the tier-1 cascade: fold the scan over all submatches and
    succeed iff the maximum is positive. -/
def tryCurrencyPattern (text : Str) (cp : RE × Str × Str) :
    Option (ℚ × Str × Str × Str) :=
  tier1Result ((findAllSub true cp.1 text).foldl tier1Step ((0 : ℚ), ([] : Str))) cp

/-- The tier-1 currency-aware cascade: the first pattern (in table order)
    with a positive maximum wins. -/
def tier1Cascade (text : Str) : Option (ℚ × Str × Str × Str) :=
  List.findSome? (tryCurrencyPattern text) currencyPatterns

/-- The per-match fold of one `extractAmount` pattern: parse group 1 (after
    comma removal) and keep the maximum; the `len(match) >= 1` branch that
    trims currency symbols off the full match is dead for this table (every
    pattern has a capture group) but is modelled for fidelity. -/
def extAmtStep (mx : ℚ) (m : List Str) : ℚ :=
  if 2 ≤ m.length then
    match goParseFloat (stripCommas ((m.get? 1).getD [])) with
    | some amount => if mx < amount then amount else mx
    | none => mx
  else if 1 ≤ m.length then
    match goParseFloat (stripCommas (goTrimSpace
        (goTrimPre (chars "€") (goTrimPre (chars "£")
          (goTrimPre (chars "$") (m.headD [])))))) with
    | some amount => if mx < amount then amount else mx
    | none => mx
  else mx

/-- One entry of the fallback pattern table, succeeding iff its maximum is
    positive. -/
def fbPatternAmount (text : Str) (p : RE × Bool) : Option ℚ :=
  if 0 < (findAllSub p.2 p.1 text).foldl extAmtStep 0 then
    some ((findAllSub p.2 p.1 text).foldl extAmtStep 0)
  else none

/-- The `\d+\.\d{2}` fallback: the last match that parses positive. -/
def decimalLast (text : Str) : Option ℚ :=
  (findAllStr false decimalRE text).reverse.findSome? fun m =>
    match goParseFloat m with
    | some amount => if 0 < amount then some amount else none
    | none => none

/-- The fold of the last-resort fallback: the maximum comma-stripped number
    below the 1,000,000 sanity bound. -/
def lastResortFold (text : Str) : ℚ :=
  (findAllStr false lastResortRE text).foldl
    (fun mx m =>
      match goParseFloat (stripCommas m) with
      | some amount => if mx < amount ∧ amount < 1000000 then amount else mx
      | none => mx) 0

/-- The last-resort fallback result: that maximum when positive, else 0. -/
def lastResortMax (text : Str) : ℚ :=
  if 0 < lastResortFold text then lastResortFold text else 0

/-- `extractAmount` — the currency-agnostic fallback tier. -/
def extractAmount (text : Str) : ℚ :=
  if text.isEmpty then 0
  else
    match List.findSome? (fbPatternAmount text) amountPatterns with
    | some v => v
    | none =>
        match decimalLast text with
        | some v => v
        | none => lastResortMax text

/-- `extractAmountWithCurrency`: tier-1 cascade, then the fallback with
    currency fixed to USD/$ and an empty raw-match text. -/
def extractAmountWithCurrency (text : Str) : ℚ × Str × Str × Str :=
  if text.isEmpty then (0, chars "USD", chars "$", [])
  else
    match tier1Cascade text with
    | some r => r
    | none =>
        if 0 < extractAmount text then
          (extractAmount text, chars "USD", chars "$", [])
        else (0, chars "USD", chars "$", [])

/-- `cleanHTMLTags`'s tag stripper: each `<[^>]*>` match (a `<` up to the
    next `>`) becomes one space; a `<` with no later `>` stays. -/
def dropThroughGt : Str → Option Str
  | [] => none
  | c :: t => if c = '>' then some t else dropThroughGt t

def stripTagsFuel : Nat → Str → Str
  | 0, s => s
  | fuel + 1, s =>
      match s with
      | [] => []
      | c :: t =>
          if c = '<' then
            match dropThroughGt t with
            | some t2 => ' ' :: stripTagsFuel fuel t2
            | none => c :: stripTagsFuel fuel t
          else c :: stripTagsFuel fuel t

def stripTags (s : Str) : Str := stripTagsFuel s.length s

/-- The `\s+` → " " collapse of `cleanHTMLTags`. -/
def collapseWsFuel : Nat → Str → Str
  | 0, s => s
  | fuel + 1, s =>
      match s with
      | [] => []
      | c :: t =>
          if ccMatch .space c then ' ' :: collapseWsFuel fuel (t.dropWhile (ccMatch .space))
          else c :: collapseWsFuel fuel t

def collapseWs (s : Str) : Str := collapseWsFuel s.length s

/-- `cleanHTMLTags`: strip tags, decode the seven entities, collapse
    whitespace, trim. -/
def cleanHTMLTags (text : Str) : Str :=
  let t1 := stripTags text
  let t2 := goReplaceAll t1 (chars "&nbsp;") (chars " ")
  let t3 := goReplaceAll t2 (chars "&amp;") (chars "&")
  let t4 := goReplaceAll t3 (chars "&lt;") (chars "<")
  let t5 := goReplaceAll t4 (chars "&gt;") (chars ">")
  let t6 := goReplaceAll t5 (chars "&quot;") (chars "\"")
  let t7 := goReplaceAll t6 (chars "&#39;") (chars "\x27")
  let t8 := goReplaceAll t7 (chars "&apos;") (chars "\x27")
  goTrimSpace (collapseWs t8)

/-- The date-string reconstruction of `extractTransactionDate`: branch on
    the length of the last match and on a comma in the full match text.
    (The third branch, which would re-join with dashes, is unreachable:
    every pattern in the table has three groups, so the length is 4.) -/
def reconstructDateStr (m : List Str) : Option Str :=
  let m0 := m.headD []
  let m1 := (m.get? 1).getD []
  let m2 := (m.get? 2).getD []
  let m3 := (m.get? 3).getD []
  if 4 ≤ m.length ∧ goContains m0 (chars ",") then
    some (goTitle m1 ++ chars " " ++ m2 ++ chars " " ++ m3)
  else if 4 ≤ m.length then
    some (m1 ++ chars " " ++ goTitle m2 ++ chars " " ++ m3)
  else if 3 ≤ m.length then
    some (m1 ++ chars "-" ++ m2 ++ chars "-" ++ m3)
  else none

/-- One pass of the exact-date cascade: if the pattern has matches, take
    the last, reconstruct, and return the parse when it succeeds (a parse
    failure falls through to the next pattern). -/
def tryDatePattern (fullText : Str) (dp : RE × Layout) : Option DateTime :=
  match (findAllSub true dp.1 fullText).getLast? with
  | none => none
  | some lastMatch =>
      match reconstructDateStr lastMatch with
      | none => none
      | some dateStr => goTimeParse dp.2 dateStr

/-- The year-less month-day fallback of `extractTransactionDate`: take the
    last match, rebuild "Month DD <year>" with `time.Now().Year()`, and
    parse it with layout "January 02 2006"; zero time on failure. -/
def monthDayFallback (year : Nat) (fullText : Str) : DateTime :=
  match (findAllSub true monthDayRE fullText).getLast? with
  | none => dateZero
  | some lastMatch =>
      match goTimeParse .monthFirst
          (goTitle ((lastMatch.get? 1).getD []) ++ chars " " ++
           (lastMatch.get? 2).getD [] ++ chars " " ++ natToStr year) with
      | some t => t
      | none => dateZero

/-- `extractTransactionDate`: clean the body, append the subject, lower-
    case; try the four exact patterns; then the year-less month-day
    fallback with `time.Now().Year()`; otherwise the zero time. -/
def extractTransactionDate (now : DateTime) (body subject : Str) : DateTime :=
  match List.findSome?
      (tryDatePattern (lowerStr (cleanHTMLTags body ++ chars " " ++ subject)))
      datePatterns with
  | some t => t
  | none =>
      monthDayFallback now.year (lowerStr (cleanHTMLTags body ++ chars " " ++ subject))

/-- The transaction date the orchestrator stores: the recovered date, or
    the message timestamp when recovery returned the zero time. -/
def chosenDate (now : DateTime) (msg : Message) : DateTime :=
  if extractTransactionDate now msg.body msg.subject = dateZero then msg.date
  else extractTransactionDate now msg.body msg.subject

/-- `extractTransactionFromMessage`: match a service, parse the amount off
    the body (reject non-positive), recover the date (falling back to the
    message timestamp), and build the transaction; `time.Now()` is the
    `now` parameter. -/
def extractTransactionFromMessage (services : List Service) (now : DateTime)
    (msg : Message) : Option Transaction :=
  match matchService services msg with
  | none => none
  | some service =>
      if (extractAmountWithCurrency msg.body).1 ≤ 0 then none
      else
        some { id := msg.id, serviceID := service.id,
               serviceName := service.name, category := service.category,
               amount := (extractAmountWithCurrency msg.body).1,
               currency := (extractAmountWithCurrency msg.body).2.1,
               currencySymbol := (extractAmountWithCurrency msg.body).2.2.1,
               date := chosenDate now msg, description := msg.subject,
               email := msg.fromAddr, subject := msg.subject,
               timestamp := now,
               rawAmount := (extractAmountWithCurrency msg.body).2.2.2 }

/-- `ExtractTransactions`: apply the per-message extraction over the batch
    in order, keeping the successes. -/
def ExtractTransactions (services : List Service) (now : DateTime)
    (msgs : List Message) : List Transaction :=
  msgs.filterMap (extractTransactionFromMessage services now)

/-- A transaction with the processing timestamp blanked, for comparing two
    extraction runs up to the `Timestamp` field. -/
def eraseTimestamp (t : Transaction) : Transaction := { t with timestamp := dateZero }

/-! ### Helper lemmas -/

theorem findSome?_ex {α β : Type _} {f : α → Option β} {l : List α} {b : β}
    (h : List.findSome? f l = some b) : ∃ a ∈ l, f a = some b := by
  induction l with
  | nil => simp [List.findSome?] at h
  | cons x xs ih =>
      cases hfx : f x with
      | some y =>
          rw [List.findSome?_cons, hfx] at h
          exact ⟨x, List.mem_cons_self x xs, by rw [hfx]; exact h⟩
      | none =>
          rw [List.findSome?_cons, hfx] at h
          obtain ⟨a, ha, hfa⟩ := ih h
          exact ⟨a, List.mem_cons_of_mem x ha, hfa⟩

theorem parseUnsigned_of_digits {s : Str} (hne : s.isEmpty = false)
    (hd : allDigits s = true) : parseUnsigned s = some (digitsVal s : ℚ) := by
  have hall : ∀ c ∈ s, isDigitCh c := by
    intro c hc; exact List.all_eq_true.mp hd c hc
  have htw : s.takeWhile isDigitCh = s := List.takeWhile_eq_self_iff.mpr hall
  have hdw : s.dropWhile isDigitCh = [] := List.dropWhile_eq_nil_iff.mpr hall
  simp only [parseUnsigned, htw, hdw, hne]
  simp

theorem digitsToNat_spec {s : Str} {n : Nat} (h : digitsToNat s = some n) :
    s.isEmpty = false ∧ allDigits s = true ∧ n = digitsVal s := by
  unfold digitsToNat at h
  split at h
  · cases h
  · rename_i hcond
    have hb : (s.isEmpty || !allDigits s) = false := by
      cases hx : (s.isEmpty || !allDigits s) with
      | false => rfl
      | true => exact absurd hx hcond
    rcases Bool.or_eq_false_iff.mp hb with ⟨h1, h2⟩
    have h2' : allDigits s = true := by simpa using h2
    cases h
    exact ⟨h1, h2', rfl⟩

theorem goAtoiCore_false_spec {s : Str} {k : Int}
    (h : goAtoiCore false s = some k) :
    ∃ n : Nat, k = (n : Int) ∧ parseUnsigned s = some (n : ℚ) := by
  unfold goAtoiCore at h
  cases hdn : digitsToNat s with
  | none => rw [hdn] at h; cases h
  | some n =>
      rw [hdn] at h
      simp only [Bool.false_eq_true, if_false] at h
      split at h
      · cases h
        obtain ⟨hne, hall, hval⟩ := digitsToNat_spec hdn
        exact ⟨n, rfl, by rw [parseUnsigned_of_digits hne hall, hval]⟩
      · cases h

theorem goAtoi_goParseFloat {s : Str} {k : Int} (h : goAtoi s = some k)
    (hk : 0 < k) : goParseFloat s = some (k : ℚ) := by
  cases s with
  | nil => simp [goAtoi] at h
  | cons c r =>
      simp only [goAtoi] at h
      simp only [goParseFloat]
      by_cases hp : c = '+'
      · rw [if_pos hp] at h
        rw [if_pos hp]
        obtain ⟨n, hkn, hpu⟩ := goAtoiCore_false_spec h
        rw [hpu, hkn]; norm_num
      · by_cases hm : c = '-'
        · rw [if_neg hp, if_pos hm] at h
          exfalso
          unfold goAtoiCore at h
          cases hdn : digitsToNat r with
          | none => rw [hdn] at h; cases h
          | some n =>
              rw [hdn] at h
              simp only [if_true] at h
              split at h
              · cases h; omega
              · cases h
        · rw [if_neg hp, if_neg hm] at h
          rw [if_neg hp, if_neg hm]
          obtain ⟨n, hkn, hpu⟩ := goAtoiCore_false_spec h
          rw [hpu, hkn]; norm_num

theorem pickFrom_gate {m : List Str} {s : Str} :
    ∀ {idxs : List Nat}, pickFrom m idxs = some s →
      ∃ k : Int, goAtoi (stripCommas s) = some k ∧ 0 < k := by
  intro idxs
  induction idxs with
  | nil => intro h; simp [pickFrom] at h
  | cons i is ih =>
      intro h
      unfold pickFrom at h
      split at h
      · rename_i hcond
        have hs : (m.get? i).getD [] = s := Option.some.inj h
        rw [hs] at hcond
        simp only [candidateOK, Bool.and_eq_true] at hcond
        rcases hcond with ⟨-, hgate⟩
        cases hga : goAtoi (stripCommas s) with
        | none => rw [hga] at hgate; cases hgate
        | some num =>
            rw [hga] at hgate
            exact ⟨num, rfl, of_decide_eq_true hgate⟩
      · exact ih h

theorem pickAmountStr_gate {m : List Str} {s : Str}
    (h : pickAmountStr m = some s) :
    ∃ k : Int, goAtoi (stripCommas s) = some k ∧ 0 < k := by
  unfold pickAmountStr at h
  split at h
  · exact pickFrom_gate h
  · cases h

/-- The invariant the tier-1 scan maintains on its running maximum: zero,
    or a whole number strictly between 0 and the sanity bound. -/
def T1Inv (q : ℚ) : Prop :=
  q = 0 ∨ ∃ n : Nat, q = (n : ℚ) ∧ 0 < q ∧ q < 1000000

theorem tier1Step_inv {acc : ℚ × Str} {m : List Str} (h : T1Inv acc.1) :
    T1Inv (tier1Step acc m).1 := by
  unfold tier1Step
  cases hp : pickAmountStr m with
  | none =>
      simp only [hp, Option.getD]
      exact h
  | some s =>
      obtain ⟨k, hga, hk⟩ := pickAmountStr_gate hp
      have hpf := goAtoi_goParseFloat hga hk
      simp only [hp, Option.getD, hpf]
      split
      · rename_i hcond
        right
        refine ⟨k.toNat, ?_, ?_, hcond.2⟩
        · show (k : ℚ) = ((k.toNat : ℕ) : ℚ)
          rw [← Int.cast_natCast, Int.toNat_of_nonneg hk.le]
        · show (0 : ℚ) < (k : ℚ)
          exact_mod_cast hk
      · exact h

theorem tier1Fold_inv (ms : List (List Str)) :
    ∀ acc : ℚ × Str, T1Inv acc.1 → T1Inv ((ms.foldl tier1Step acc).1) := by
  induction ms with
  | nil => intro acc h; exact h
  | cons m ms ih => intro acc h; exact ih _ (tier1Step_inv h)

/-- Everything the tier-1 cascade ever returns: a whole positive amount
    strictly below the 1,000,000 sanity bound. -/
theorem tier1Cascade_bounds {text : Str} {r : ℚ × Str × Str × Str}
    (h : tier1Cascade text = some r) :
    ∃ n : Nat, r.1 = (n : ℚ) ∧ 0 < r.1 ∧ r.1 < 1000000 := by
  obtain ⟨cp, _, hcp⟩ := findSome?_ex h
  unfold tryCurrencyPattern tier1Result at hcp
  split at hcp
  · rename_i hpos
    cases hcp
    have hinv := tier1Fold_inv (findAllSub true cp.1 text) ((0 : ℚ), ([] : Str))
      (Or.inl rfl)
    rcases hinv with h0 | ⟨n, hn, hgt, hlt⟩
    · rw [h0] at hpos; exact absurd hpos (lt_irrefl 0)
    · exact ⟨n, hn, hgt, hlt⟩
  · cases hcp

theorem matchService_mem {services : List Service} {msg : Message}
    {svc : Service} (h : matchService services msg = some svc) :
    svc ∈ services := by
  unfold matchService at h
  cases hf : services.find? (domainHit (lowerStr msg.fromAddr)) with
  | some s => rw [hf] at h; cases h; exact List.mem_of_find?_eq_some hf
  | none =>
      rw [hf] at h
      exact List.mem_of_find?_eq_some h

theorem decimalLast_pos {text : Str} {v : ℚ} (h : decimalLast text = some v) :
    0 < v := by
  unfold decimalLast at h
  obtain ⟨m, _, hm⟩ := findSome?_ex h
  cases hpm : goParseFloat m with
  | none => simp only [hpm] at hm; cases hm
  | some amount =>
      simp only [hpm] at hm
      by_cases hpos : 0 < amount
      · rw [if_pos hpos] at hm; cases hm; exact hpos
      · rw [if_neg hpos] at hm; cases hm

theorem fbFindSome_pos {text : Str} {v : ℚ}
    (h : List.findSome? (fbPatternAmount text) amountPatterns = some v) :
    0 < v := by
  obtain ⟨p, _, hp⟩ := findSome?_ex h
  unfold fbPatternAmount at hp
  split at hp
  · rename_i hpos; cases hp; exact hpos
  · cases hp

theorem extractAmount_cases (text : Str) :
    extractAmount text = 0 ∨ 0 < extractAmount text := by
  unfold extractAmount
  split
  · exact Or.inl rfl
  · cases h1 : List.findSome? (fbPatternAmount text) amountPatterns with
    | some v =>
        show v = 0 ∨ 0 < v
        exact Or.inr (fbFindSome_pos h1)
    | none =>
        cases h2 : decimalLast text with
        | some v =>
            show v = 0 ∨ 0 < v
            exact Or.inr (decimalLast_pos h2)
        | none =>
            show lastResortMax text = 0 ∨ 0 < lastResortMax text
            unfold lastResortMax
            by_cases hpos : 0 < lastResortFold text
            · rw [if_pos hpos]; exact Or.inr hpos
            · rw [if_neg hpos]; exact Or.inl rfl

/-- The clock enters `extractTransactionDate` only through the current
    year used by the year-less fallback. -/
theorem extractTransactionDate_year {n1 n2 : DateTime} (h : n1.year = n2.year)
    (body subject : Str) :
    extractTransactionDate n1 body subject = extractTransactionDate n2 body subject := by
  unfold extractTransactionDate
  rw [h]

theorem chosenDate_year {n1 n2 : DateTime} (h : n1.year = n2.year)
    (msg : Message) : chosenDate n1 msg = chosenDate n2 msg := by
  unfold chosenDate
  rw [extractTransactionDate_year h]

/-- Per-message determinism up to the processing timestamp, for two clock
    readings in the same calendar year. -/
theorem etfm_year {services : List Service} {n1 n2 : DateTime}
    (h : n1.year = n2.year) (msg : Message) :
    (extractTransactionFromMessage services n1 msg).map eraseTimestamp =
      (extractTransactionFromMessage services n2 msg).map eraseTimestamp := by
  unfold extractTransactionFromMessage
  cases matchService services msg with
  | none => rfl
  | some service =>
      dsimp only
      by_cases hle : (extractAmountWithCurrency msg.body).1 ≤ 0
      · rw [if_pos hle, if_pos hle]
      · rw [if_neg hle, if_neg hle, chosenDate_year h]
        rfl

theorem filterMap_map_erase {f g : Message → Option Transaction}
    (h : ∀ m, (f m).map eraseTimestamp = (g m).map eraseTimestamp) :
    ∀ msgs : List Message,
      (msgs.filterMap f).map eraseTimestamp = (msgs.filterMap g).map eraseTimestamp := by
  intro msgs
  induction msgs with
  | nil => rfl
  | cons m ms ih =>
      have hm := h m
      cases hf : f m with
      | none =>
          cases hg : g m with
          | none =>
              rw [List.filterMap_cons_none hf, List.filterMap_cons_none hg]
              exact ih
          | some t => rw [hf, hg] at hm; cases hm
      | some t =>
          cases hg : g m with
          | none => rw [hf, hg] at hm; cases hm
          | some t' =>
              have hm' : eraseTimestamp t = eraseTimestamp t' := by
                rw [hf, hg] at hm
                simpa using hm
              rw [List.filterMap_cons_some hf, List.filterMap_cons_some hg]
              simp only [List.map_cons, hm', ih]

/-! ### Concrete fixtures used by the claim theorems -/

/-- A clock reading used where the current year is irrelevant. -/
def now0 : DateTime := ⟨2024, 3, 2, 12, 0, 0⟩

/-- A clock reading in 2025, for the date-recovery evaluations. -/
def nowC : DateTime := ⟨2025, 6, 1, 0, 0, 0⟩

def uberSvc : Service :=
  { id := chars "uber", name := chars "Uber", category := chars "transport",
    emailDomains := [chars "uber.com"], transactionTypes := [],
    keywords := [chars "trip"], pricePattern := ⟨[], []⟩ }

def msgC2 : Message :=
  { id := chars "m1", threadID := [], fromAddr := chars "billing@uber.com",
    toAddr := [], subject := chars "Your Friday trip",
    body := chars "Total $18.32 USD", date := ⟨2024, 3, 1, 10, 0, 0⟩,
    labels := [] }

/-- The transaction the end-to-end scenario produces. -/
def txnC2 : Transaction :=
  { id := chars "m1", serviceID := chars "uber", serviceName := chars "Uber",
    category := chars "transport", amount := 18.32, currency := chars "USD",
    currencySymbol := chars "$", date := ⟨2024, 3, 1, 10, 0, 0⟩,
    description := chars "Your Friday trip", email := chars "billing@uber.com",
    subject := chars "Your Friday trip", timestamp := now0, rawAmount := [] }

/-- A message that matches the catalog by domain but contains no number. -/
def msgNoAmt : Message :=
  { id := chars "m2", threadID := [], fromAddr := chars "billing@uber.com",
    toAddr := [], subject := chars "receipt", body := chars "thanks",
    date := ⟨2024, 3, 1, 10, 0, 0⟩, labels := [] }

/-- A catalog entry with an empty id (nothing in `loadServiceTracker`
    prevents it). -/
def svcNoId : Service :=
  { id := [], name := chars "X", category := [],
    emailDomains := [chars "x.com"], transactionTypes := [], keywords := [],
    pricePattern := ⟨[], []⟩ }

def msgNoId : Message :=
  { id := chars "m3", threadID := [], fromAddr := chars "a@x.com",
    toAddr := [], subject := [], body := chars "$5",
    date := ⟨2024, 1, 1, 0, 0, 0⟩, labels := [] }

def svcShop : Service :=
  { id := chars "shop", name := chars "Shop", category := [],
    emailDomains := [chars "shop.com"], transactionTypes := [], keywords := [],
    pricePattern := ⟨[], []⟩ }

/-- A message whose body carries a year-less date ("december 14"). -/
def msgShop : Message :=
  { id := chars "m4", threadID := [], fromAddr := chars "receipts@shop.com",
    toAddr := [], subject := [], body := chars "Receipt $20 december 14",
    date := ⟨2025, 12, 20, 8, 0, 0⟩, labels := [] }

/-- New Year's Eve 2025 and New Year's Day 2026. -/
def nowNYE : DateTime := ⟨2025, 12, 31, 23, 0, 0⟩

def nowNYD : DateTime := ⟨2026, 1, 1, 1, 0, 0⟩

/-- A second 2025 clock reading. -/
def nowC2b : DateTime := ⟨2025, 1, 2, 3, 4, 5⟩

/-! ### The claims -/

attribute [local semireducible] Rat.add Rat.mul Rat.inv Rat.ofScientific

/-- Claim C1 (corrected).  Counterexample to the claim as stated: on the
    input "$2,500,000.00" `extractAmountWithCurrency` does not return
    amount 0 — it returns 2,500,000, an amount at or above 1,000,000,
    produced by the fallback tier's `\$\s*([\d,]+\.?\d{0,2})` pattern,
    whose maximum-tracking loop has no sanity bound. -/
theorem spec_C1_cex :
    extractAmountWithCurrency (chars "$2,500,000.00") =
      (2500000, chars "USD", chars "$", []) := by
  decide

/-- Claim C1 as amended: the tier-1 cascade never returns an amount at or
    above 1,000,000, but the fallback tier is not so bounded (only its
    last-resort scan is): "$2,500,000.00" yields amount 2,500,000 with
    currency USD via the fallback, not 0. -/
theorem spec_C1 :
    (∀ (text : Str) (r : ℚ × Str × Str × Str),
        tier1Cascade text = some r → r.1 < 1000000) ∧
    extractAmountWithCurrency (chars "$2,500,000.00") =
      (2500000, chars "USD", chars "$", []) := by
  constructor
  · intro text r h
    obtain ⟨n, _, _, hlt⟩ := tier1Cascade_bounds h
    exact hlt
  · decide

/-- Witness for Claim C1: the tier-1 hypothesis is satisfiable — on "$5"
    the cascade returns 5, which the theorem bounds below 1,000,000. -/
theorem spec_C1_witness :
    tier1Cascade (chars "$5") = some (5, chars "USD", chars "$", chars "$5") ∧
    ((5 : ℚ), chars "USD", chars "$", chars "$5").1 < 1000000 :=
  ⟨by decide, spec_C1.1 (chars "$5") (5, chars "USD", chars "$", chars "$5")
    (by decide)⟩

/-- Claim C3 (corrected).  Counterexample to the claim as stated: the text
    "$123.45" contains "$123.45" and no other currency markers, yet the
    parser does not return raw matched substring "$123.45". -/
theorem spec_C3_cex :
    extractAmountWithCurrency (chars "$123.45") ≠
      (123.45, chars "USD", chars "$", chars "$123.45") := by
  decide

/-- Claim C3 as amended: on the text "$123.45" the parser returns
    (123.45, "USD", "$", "") — the amount and currency as claimed, but the
    raw matched substring is empty, because tier 1's integer gate rejects
    the decimal candidate and the amount is produced by the fallback tier,
    which always reports an empty raw substring. -/
theorem spec_C3 :
    extractAmountWithCurrency (chars "$123.45") =
      (123.45, chars "USD", chars "$", []) := by
  decide

/-- Claim C6 (corrected).  Counterexample to the claim as stated: in
    "$2,000,000 $2,000,000 $5" the same dollar figure appears twice plus a
    smaller line item, yet the parser returns the line item 5, because the
    duplicated figure is discarded by tier 1's 1,000,000 sanity bound. -/
theorem spec_C6_cex :
    extractAmountWithCurrency (chars "$2,000,000 $2,000,000 $5") =
      (5, chars "USD", chars "$", chars "$5") ∧ (5 : ℚ) ≠ 2000000 := by
  constructor
  · decide
  · decide

/-- Claim C6 as amended: the maximum-of-matches rule prefers the larger
    figure when it is below the sanity bound: "Subtotal $10.00 ... Total
    $25.00" yields 25.00 (via the fallback tier, the decimal amounts having
    fallen through tier 1). -/
theorem spec_C6 :
    extractAmountWithCurrency (chars "Subtotal $10.00 ... Total $25.00") =
      (25, chars "USD", chars "$", []) := by
  decide

/-- Claim C9 (confirmed): whenever the tier-1 cascade produces no result,
    `extractAmountWithCurrency` returns the fallback amount with currency
    code "USD", symbol "$" and an empty raw matched substring — so every
    result with a non-empty raw substring originated in tier 1. -/
theorem spec_C9 (text : Str) (h : tier1Cascade text = none) :
    extractAmountWithCurrency text =
      (extractAmount text, chars "USD", chars "$", []) := by
  unfold extractAmountWithCurrency
  by_cases hE : text.isEmpty
  · rw [if_pos hE]
    have h0 : extractAmount text = 0 := by unfold extractAmount; rw [if_pos hE]
    rw [h0]
  · rw [if_neg hE, h]
    by_cases hpos : 0 < extractAmount text
    · rw [if_pos hpos]
    · rw [if_neg hpos]
      rcases extractAmount_cases text with h0 | hp
      · rw [h0]
      · exact absurd hp hpos

/-- Witness for Claim C9 at the text "xyz", where tier 1 finds nothing. -/
theorem spec_C9_witness :
    tier1Cascade (chars "xyz") = none ∧
    extractAmountWithCurrency (chars "xyz") =
      (extractAmount (chars "xyz"), chars "USD", chars "$", []) :=
  ⟨by decide, spec_C9 (chars "xyz") (by decide)⟩

/-- Claim C10 (confirmed): any amount the tier-1 cascade returns is a
    whole (positive) number — the candidate gate demands a successful
    integer parse after comma removal, so decimal-pointed amounts fall
    through to the fallback tier. -/
theorem spec_C10 (text : Str) (a : ℚ) (c s r : Str)
    (h : tier1Cascade text = some (a, c, s, r)) :
    ∃ n : Nat, a = (n : ℚ) ∧ 0 < a := by
  obtain ⟨n, hn, hpos, _⟩ := tier1Cascade_bounds h
  exact ⟨n, hn, hpos⟩

/-- Witness for Claim C10: on "$5" tier 1 returns the whole number 5. -/
theorem spec_C10_witness :
    tier1Cascade (chars "$5") = some (5, chars "USD", chars "$", chars "$5") ∧
    ∃ n : Nat, (5 : ℚ) = (n : ℚ) ∧ (0 : ℚ) < 5 :=
  ⟨by decide, spec_C10 (chars "$5") 5 (chars "USD") (chars "$") (chars "$5")
    (by decide)⟩

/-- Claim C2 (confirmed): a message from billing@uber.com with subject
    "Your Friday trip", body "Total $18.32 USD" and no date string,
    received 2024-03-01T10:00:00Z, extracted against the catalog entry
    {id:"uber", emailDomains:["uber.com"], keywords:["trip"]}, yields
    exactly one transaction with serviceId "uber", amount 18.32, currency
    "USD", symbol "$", and the received timestamp as its date. -/
theorem spec_C2 :
    (ExtractTransactions [uberSvc] now0 [msgC2]).map
      (fun t => (t.serviceID, t.amount, t.currency, t.currencySymbol, t.date)) =
      [(chars "uber", (18.32 : ℚ), chars "USD", chars "$",
        (⟨2024, 3, 1, 10, 0, 0⟩ : DateTime))] := by
  decide

/-- Claim C4 (code bug): on the body "2025-12-14" — a text containing an
    ISO date, where no earlier pattern family exists — the recoverer does
    not return 2025-12-14; it returns the zero time.  The code pairs the
    ISO pattern with layout "2006-01-02" but reconstructs the match as the
    space-separated "2025 12 14", which that layout always rejects. -/
theorem spec_C4_bug :
    extractTransactionDate nowC (chars "2025-12-14") [] = dateZero ∧
    dateZero ≠ (⟨2025, 12, 14, 0, 0, 0⟩ : DateTime) := by
  constructor
  · decide
  · decide

/-- Claim C5 (code bug): on the date text "Dec 14, 2025" the recoverer
    returns the zero time, not 2025-12-14: the reconstructed "Dec 14 2025"
    is parsed with layout "January 02 2006", which only accepts full month
    names, so both the month-day-year family and the year-less fallback
    fail even though the regex (and the code's own comment) admit the
    abbreviation. -/
theorem spec_C5_bug :
    extractTransactionDate nowC (chars "Dec 14, 2025") [] = dateZero ∧
    dateZero ≠ (⟨2025, 12, 14, 0, 0, 0⟩ : DateTime) := by
  constructor
  · decide
  · decide

/-- Claim C7 (corrected).  Counterexample to the claim as stated: with a
    catalog entry whose id is empty, a matching message with a positive
    amount produces a Transaction whose service id is empty. -/
theorem spec_C7_cex :
    (extractTransactionFromMessage [svcNoId] now0 msgNoId).map
      Transaction.serviceID = some [] := by
  decide

/-- Claim C7 as amended: every emitted Transaction has amount > 0 and
    carries the id of some catalog service (hence a non-empty id whenever
    every catalog id is non-empty); and a message that matches a service
    but yields no positive amount produces no Transaction (extraction is a
    total function — nothing is raised). -/
theorem spec_C7 :
    (∀ (services : List Service) (now : DateTime) (msg : Message)
        (txn : Transaction),
        extractTransactionFromMessage services now msg = some txn →
        0 < txn.amount ∧ ∃ svc ∈ services, txn.serviceID = svc.id) ∧
    (∀ (services : List Service) (now : DateTime) (msg : Message)
        (svc : Service),
        matchService services msg = some svc →
        (extractAmountWithCurrency msg.body).1 ≤ 0 →
        extractTransactionFromMessage services now msg = none) := by
  constructor
  · intro services now msg txn h
    unfold extractTransactionFromMessage at h
    cases hm : matchService services msg with
    | none => rw [hm] at h; cases h
    | some svc =>
        rw [hm] at h
        dsimp only at h
        by_cases hle : (extractAmountWithCurrency msg.body).1 ≤ 0
        · rw [if_pos hle] at h; cases h
        · rw [if_neg hle] at h
          cases h
          exact ⟨lt_of_not_le hle, svc, matchService_mem hm, rfl⟩
  · intro services now msg svc hm hle
    unfold extractTransactionFromMessage
    rw [hm]
    dsimp only
    rw [if_pos hle]

/-- Witness for Claim C7: the end-to-end message emits `txnC2` (amount
    18.32 > 0, service id "uber" from the catalog), while the matching but
    amount-less `msgNoAmt` is silently dropped. -/
theorem spec_C7_witness :
    extractTransactionFromMessage [uberSvc] now0 msgC2 = some txnC2 ∧
    (0 < txnC2.amount ∧ ∃ svc ∈ [uberSvc], txnC2.serviceID = svc.id) ∧
    matchService [uberSvc] msgNoAmt = some uberSvc ∧
    (extractAmountWithCurrency msgNoAmt.body).1 ≤ 0 ∧
    extractTransactionFromMessage [uberSvc] now0 msgNoAmt = none :=
  ⟨by decide, spec_C7.1 [uberSvc] now0 msgC2 txnC2 (by decide), by decide,
   by decide, spec_C7.2 [uberSvc] now0 msgNoAmt uberSvc (by decide) (by decide)⟩

/-- Claim C8 (corrected).  Counterexample to the claim as stated: two runs
    over the same batch and catalog whose `time.Now()` readings fall in
    different years (New Year's Eve 2025 vs New Year's Day 2026) produce
    records that differ beyond the processing timestamp — the body
    "Receipt $20 december 14" carries a year-less date, and the fallback
    completes it with the current year. -/
theorem spec_C8_cex :
    (ExtractTransactions [svcShop] nowNYE [msgShop]).map eraseTimestamp ≠
      (ExtractTransactions [svcShop] nowNYD [msgShop]).map eraseTimestamp := by
  decide

/-- Claim C8 as amended: two extraction runs over the same message batch
    and catalog whose clock readings fall in the same calendar year yield
    identical transaction records except for the processing-timestamp
    field.  (Across a year boundary the year-less date fallback can change
    the date field, and in the original Go the unspecified map iteration
    order of the catalog could additionally change the matched service;
    the model fixes a scan order.) -/
theorem spec_C8 (services : List Service) (now1 now2 : DateTime)
    (msgs : List Message) (h : now1.year = now2.year) :
    (ExtractTransactions services now1 msgs).map eraseTimestamp =
      (ExtractTransactions services now2 msgs).map eraseTimestamp := by
  unfold ExtractTransactions
  exact filterMap_map_erase (fun m => etfm_year h m) msgs

/-- Witness for Claim C8: two distinct clock readings in 2025 give equal
    records modulo the processing timestamp. -/
theorem spec_C8_witness :
    nowC.year = nowC2b.year ∧
    (ExtractTransactions [svcShop] nowC [msgShop]).map eraseTimestamp =
      (ExtractTransactions [svcShop] nowC2b [msgShop]).map eraseTimestamp :=
  ⟨rfl, spec_C8 [svcShop] nowC nowC2b [msgShop] rfl⟩

end GoMoney
